import Mathlib

/-!
Verification of the multivariate-normal log-density evaluator from
`working_with_logarithm_of_objective_function.ipynb`.

The notebook defines, for the 4-dimensional standard normal distribution
(zero mean, identity covariance):

* a numerically stable evaluator `getLogFunc` working entirely in log-space,
  using the precomputed inverse covariance `INVCOV` and the log-space
  normalization constant `MVN_COEF`;
* a naive evaluator `getLogFunc_bad` that computes `log (pdf point)` where
  `pdf` is the ordinary multivariate-normal density (via scipy).

Real numbers model the exact mathematical values computed by the code; an
explicit underflow model (`expDouble`, `logDouble`) captures the
double-precision failure of the naive path at far-away points, and the
generalized evaluator component (`create`, `evaluateLogDensity`) is modelled
from the spec, since its construction/validation logic has no counterpart in
the notebook source.
-/

open Real Matrix Classical

namespace Paramontex

/-- `NDIM = 4`: the number of dimensions of the domain of the objective
function, from the notebook. -/
def NDIM : ℕ := 4

/-- `MEAN = np.zeros(NDIM)`: the mean of the MVN distribution. -/
def MEAN : Fin NDIM → ℝ := fun _ => 0

/-- `COVMAT = np.eye(NDIM)`: the covariance matrix of the MVN distribution. -/
def COVMAT : Matrix (Fin NDIM) (Fin NDIM) ℝ := 1

/-- `INVCOV = np.linalg.inv(COVMAT)`: the inverse of the covariance matrix. -/
noncomputable def INVCOV : Matrix (Fin NDIM) (Fin NDIM) ℝ := COVMAT⁻¹

/-- `MVN_COEF = NDIM * np.log(1/np.sqrt(2*np.pi)) + np.log(np.sqrt(np.linalg.det(INVCOV)))`:
the log of the coefficient used in the definition of the MVN. -/
noncomputable def MVN_COEF : ℝ :=
  (NDIM : ℝ) * Real.log (1 / Real.sqrt (2 * Real.pi)) +
    Real.log (Real.sqrt (Matrix.det INVCOV))

/-- The source's normalization-constant expression, generalized to an
arbitrary dimension `n` and inverse-covariance matrix `invcov`:
`n * log(1/sqrt(2*pi)) + log(sqrt(det invcov))`.  At `n = NDIM`,
`invcov = INVCOV` this is exactly `MVN_COEF`. -/
noncomputable def mvnCoefOf (n : ℕ) (invcov : Matrix (Fin n) (Fin n) ℝ) : ℝ :=
  (n : ℝ) * Real.log (1 / Real.sqrt (2 * Real.pi)) +
    Real.log (Real.sqrt (Matrix.det invcov))

/-- `getLogFunc(point)`: the logarithm of the MVN PDF, computed in log-space as
`MVN_COEF - 0.5 * np.dot(normedPoint, np.matmul(INVCOV, normedPoint))` with
`normedPoint = MEAN - point`. -/
noncomputable def getLogFunc (point : Fin NDIM → ℝ) : ℝ :=
  MVN_COEF - 0.5 *
    Matrix.dotProduct (MEAN - point) (INVCOV.mulVec (MEAN - point))

/-- The probability density function of the multivariate normal distribution
with mean `MEAN` and covariance `COVMAT`, as evaluated by
`scipy.stats.multivariate_normal(mean=MEAN, cov=COVMAT).pdf`; the scipy
routine is external to the repository, so it is embedded here by the
mathematical definition of the MVN density. -/
noncomputable def mvnPdf (point : Fin NDIM → ℝ) : ℝ :=
  (1 / Real.sqrt ((2 * Real.pi) ^ NDIM * Matrix.det COVMAT)) *
    Real.exp (-(1 / 2) *
      Matrix.dotProduct (point - MEAN) ((COVMAT⁻¹).mulVec (point - MEAN)))

/-- `getLogFunc_bad(point) = np.log(mvn.pdf(point))`: the naive evaluator,
in exact real arithmetic. -/
noncomputable def getLogFunc_bad (point : Fin NDIM → ℝ) : ℝ :=
  Real.log (mvnPdf point)

/-! ### Double-precision underflow model for the naive path -/

/-- The smallest positive double-precision (binary64) value, `2^(-1074)`. -/
noncomputable def minSubnormal : ℝ := ((2 : ℝ) ^ (1074 : ℕ))⁻¹

/-- Double-precision model of `np.exp`: the result underflows to exactly `0`
when the true value lies below the smallest positive representable double
(the regime of the notebook's far-away point, where the true value is
`exp(-2*10^8)`, hundreds of millions of binary orders of magnitude below the
underflow threshold); otherwise the exact value stands in for the rounded
one, which suffices here because only the underflow branch is at issue. -/
noncomputable def expDouble (x : ℝ) : ℝ :=
  if Real.exp x < minSubnormal then 0 else Real.exp x

/-- Double-precision model of `np.log`: `np.log(0)` yields `-inf` (with a
runtime warning, not a raised exception), so the codomain is the extended
reals with `⊥` standing for `-inf`; positive arguments give the exact
logarithm. -/
noncomputable def logDouble (y : ℝ) : EReal :=
  if y = 0 then (⊥ : EReal) else ((Real.log y : ℝ) : EReal)

/-- The naive path `getLogFunc_bad` under the double-precision model:
`log(mvn.pdf(point))` with the pdf's exponential subject to underflow.
The underflow value is returned to the caller as an ordinary value (`⊥`,
i.e. `-inf`), not converted into an error. -/
noncomputable def getLogFunc_bad_double (point : Fin NDIM → ℝ) : EReal :=
  logDouble ((1 / Real.sqrt ((2 * Real.pi) ^ NDIM * Matrix.det COVMAT)) *
    expDouble (-(1 / 2) *
      Matrix.dotProduct (point - MEAN) ((COVMAT⁻¹).mulVec (point - MEAN))))

/-! ### The generalized evaluator component, modelled from the spec -/

/-- Modelled from the spec: the error taxonomy (`DimensionMismatch`,
`SingularMatrix`, `NonPositiveDefinite`) of the generalized evaluator.  The
notebook source contains no error-handling code; this follows §7 of the
spec. -/
inductive EvalError where
  | DimensionMismatch
  | SingularMatrix
  | NonPositiveDefinite
deriving DecidableEq

/-- Modelled from the spec: the immutable evaluator instance produced by
`create`, holding the mean, the precomputed inverse covariance and the
precomputed log normalization constant.  The dimension is carried in the
type, so `mean` and `inverseCovariance` are consistent by construction. -/
structure LogDensityEvaluator (n : ℕ) where
  mean : Fin n → ℝ
  inverseCovariance : Matrix (Fin n) (Fin n) ℝ
  logNormalizationConstant : ℝ

/-- Modelled from the spec: `create(mean, covariance)` fails with
`SingularMatrix` when the covariance has no inverse (determinant zero), with
`NonPositiveDefinite` when the determinant is negative, and otherwise returns
the immutable evaluator with the inverse covariance and the log
normalization constant `-(n/2)*log(2*pi) - (1/2)*log(det covariance)`
precomputed.  (The `DimensionMismatch` construction error cannot arise here
because the types force `covariance` to be `n × n` with `n` the length of
`mean`.) -/
noncomputable def create {n : ℕ} (mean : Fin n → ℝ)
    (covariance : Matrix (Fin n) (Fin n) ℝ) :
    Except EvalError (LogDensityEvaluator n) :=
  if Matrix.det covariance = 0 then Except.error EvalError.SingularMatrix
  else if Matrix.det covariance < 0 then Except.error EvalError.NonPositiveDefinite
  else Except.ok
    { mean := mean
      inverseCovariance := covariance⁻¹
      logNormalizationConstant :=
        -((n : ℝ) / 2) * Real.log (2 * Real.pi) -
          (1 / 2) * Real.log (Matrix.det covariance) }

/-- Modelled from the spec: `evaluateLogDensity(point)` checks the point's
length against the evaluator's dimension, failing with `DimensionMismatch`
on disagreement, and otherwise returns
`logNormalizationConstant - 0.5 * (mean - point)ᵀ · inverseCovariance · (mean - point)`. -/
noncomputable def evaluateLogDensity {n : ℕ} (e : LogDensityEvaluator n)
    (point : List ℝ) : Except EvalError ℝ :=
  if h : point.length = n then
    let p : Fin n → ℝ := fun i => point.get (Fin.cast h.symm i)
    Except.ok (e.logNormalizationConstant - 0.5 *
      Matrix.dotProduct (e.mean - p) (e.inverseCovariance.mulVec (e.mean - p)))
  else Except.error EvalError.DimensionMismatch

/-- A concrete 2-dimensional evaluator instance, used to witness the
error-handling and purity theorems on concrete inputs. -/
noncomputable def E1 : LogDensityEvaluator 2 :=
  { mean := fun _ => 0
    inverseCovariance := 1
    logNormalizationConstant := 0 }

/-! ### Helper lemmas -/

lemma INVCOV_eq_one : INVCOV = 1 := by
  simp [INVCOV, COVMAT]

lemma det_INVCOV : Matrix.det INVCOV = 1 := by
  simp [INVCOV_eq_one]

/-- The precomputed constant in closed form: `MVN_COEF = -2 * log (2π)`. -/
lemma MVN_COEF_eq : MVN_COEF = -2 * Real.log (2 * Real.pi) := by
  have h2pi : (0 : ℝ) < 2 * Real.pi := by positivity
  rw [MVN_COEF, det_INVCOV, Real.sqrt_one, Real.log_one, add_zero,
    one_div, Real.log_inv, Real.log_sqrt (le_of_lt h2pi)]
  norm_num [NDIM]
  ring

/-- With identity inverse covariance and zero mean, the stable evaluator is
the constant minus half the sum of squared coordinates. -/
lemma getLogFunc_eq_sq (p : Fin NDIM → ℝ) :
    getLogFunc p = MVN_COEF - (1 / 2) * ∑ i, (p i) ^ 2 := by
  rw [getLogFunc, INVCOV_eq_one, Matrix.one_mulVec]
  have : Matrix.dotProduct (MEAN - p) (MEAN - p) = ∑ i, (p i) ^ 2 := by
    unfold Matrix.dotProduct
    refine Finset.sum_congr rfl fun i _ => ?_
    simp [MEAN, sub_mul, mul_sub, sq]
  rw [this]
  norm_num

/-- A vector-matrix-vector product written with `dot`/`matmul` equals the
spec's explicit double sum. -/
lemma dotProduct_mulVec_eq_double_sum {n : ℕ}
    (M : Matrix (Fin n) (Fin n) ℝ) (v : Fin n → ℝ) :
    Matrix.dotProduct v (M.mulVec v) = ∑ i, ∑ j, v i * M i j * v j := by
  simp only [Matrix.dotProduct, Matrix.mulVec, Finset.mul_sum]
  refine Finset.sum_congr rfl fun i _ => Finset.sum_congr rfl fun j _ => by ring

/-- The logarithm of the pdf's (non-log) normalization coefficient equals the
precomputed log-space constant. -/
lemma log_pdf_coef :
    Real.log (1 / Real.sqrt ((2 * Real.pi) ^ NDIM * Matrix.det COVMAT)) =
      -2 * Real.log (2 * Real.pi) := by
  have h2pi : (0 : ℝ) ≤ (2 * Real.pi) ^ NDIM := by positivity
  rw [show Matrix.det COVMAT = 1 by simp [COVMAT], mul_one, one_div,
    Real.log_inv, Real.log_sqrt h2pi, Real.log_pow]
  norm_num [NDIM]
  ring

/-- The quadratic form of the naive path, with identity covariance and zero
mean, is the sum of squared coordinates. -/
lemma naive_quadform_eq_sq (p : Fin NDIM → ℝ) :
    Matrix.dotProduct (p - MEAN) ((COVMAT⁻¹).mulVec (p - MEAN)) =
      ∑ i, (p i) ^ 2 := by
  rw [show (COVMAT⁻¹ : Matrix (Fin NDIM) (Fin NDIM) ℝ) = 1 by simp [COVMAT],
    Matrix.one_mulVec]
  unfold Matrix.dotProduct
  refine Finset.sum_congr rfl fun i _ => ?_
  simp [MEAN, sq]

/-- In exact real arithmetic, the naive path and the stable path agree at
every point. -/
lemma naive_eq_stable (p : Fin NDIM → ℝ) : getLogFunc_bad p = getLogFunc p := by
  have hcoef : (0 : ℝ) < 1 / Real.sqrt ((2 * Real.pi) ^ NDIM * Matrix.det COVMAT) := by
    have h1 : (0 : ℝ) < (2 * Real.pi) ^ NDIM * Matrix.det COVMAT := by
      rw [show Matrix.det COVMAT = 1 by simp [COVMAT], mul_one]
      positivity
    positivity
  rw [getLogFunc_bad, mvnPdf,
    Real.log_mul (ne_of_gt hcoef) (Real.exp_ne_zero _), Real.log_exp,
    log_pdf_coef, naive_quadform_eq_sq, getLogFunc_eq_sq, MVN_COEF_eq]
  ring

/-- The true value of the exponential's argument at the notebook's far-away
point `[10000, 10000, 10000, 10000]` lies far below the double-precision
underflow threshold. -/
lemma exp_far_point_lt_minSubnormal :
    Real.exp (-(2 * 10 ^ 8 : ℝ)) < minSubnormal := by
  have hlog2 : Real.log 2 ≤ 1 := by
    have h := Real.log_le_sub_one_of_pos (by norm_num : (0 : ℝ) < 2)
    linarith
  have hlog2' : (0 : ℝ) ≤ Real.log 2 := Real.log_nonneg (by norm_num)
  have hpow : ((2 : ℝ) ^ (1074 : ℕ)) = Real.exp ((1074 : ℕ) * Real.log 2) := by
    rw [Real.exp_nat_mul, Real.exp_log (by norm_num : (0 : ℝ) < 2)]
  rw [minSubnormal, hpow, ← Real.exp_neg]
  apply Real.exp_lt_exp.mpr
  push_cast
  nlinarith

/-- The naive path at the far-away point, under the double-precision model,
evaluates to `⊥` (negative infinity). -/
lemma getLogFunc_bad_double_far :
    getLogFunc_bad_double (fun _ => (10000 : ℝ)) = (⊥ : EReal) := by
  have hq : Matrix.dotProduct ((fun _ => (10000 : ℝ)) - MEAN)
      ((COVMAT⁻¹).mulVec ((fun _ => (10000 : ℝ)) - MEAN)) = 4 * 10 ^ 8 := by
    rw [naive_quadform_eq_sq]
    simp
    norm_num [NDIM]
  rw [getLogFunc_bad_double, hq]
  have harg : (-(1 / 2) * (4 * 10 ^ 8) : ℝ) = -(2 * 10 ^ 8 : ℝ) := by norm_num
  rw [harg, expDouble, if_pos exp_far_point_lt_minSubnormal, mul_zero,
    logDouble, if_pos rfl]

/-- The stable evaluator at the far-away point `[10000, 10000, 10000, 10000]`:
a finite value, in closed form. -/
lemma getLogFunc_far :
    getLogFunc (fun _ => (10000 : ℝ)) = MVN_COEF - 2 * 10 ^ 8 := by
  have hs : ∑ i : Fin NDIM, ((10000 : ℝ)) ^ 2 = 4 * 10 ^ 8 := by
    simp
    norm_num [NDIM]
  rw [getLogFunc_eq_sq, hs]
  norm_num

/-! ### Claim theorems -/

/-- C1: For every query point of the correct dimension, the stable evaluator
`getLogFunc` returns exactly the log normalization constant `MVN_COEF` minus
one half of the quadratic form
`(MEAN - point)ᵀ · INVCOV · (MEAN - point)` (written out as the explicit
double sum), computed in log-space: the result is this affine function of
the quadratic form, with no exponential or logarithm applied to a density
value. -/
theorem C1_stable_evaluator_quadratic_form (point : Fin NDIM → ℝ) :
    getLogFunc point =
      MVN_COEF - (1 / 2) *
        ∑ i, ∑ j, (MEAN i - point i) * INVCOV i j * (MEAN j - point j) := by
  rw [getLogFunc, dotProduct_mulVec_eq_double_sum]
  simp only [Pi.sub_apply]
  norm_num

/-- C2: The source's expression for the precomputed log normalization
constant (generalized as `mvnCoefOf`, with `MVN_COEF` its instance at the
notebook's configuration) equals `-(n/2)*ln(2*pi) - (1/2)*ln(det covariance)`
for every covariance matrix with positive determinant. -/
theorem C2_log_normalization_constant :
    MVN_COEF = mvnCoefOf NDIM INVCOV ∧
      ∀ (n : ℕ) (A : Matrix (Fin n) (Fin n) ℝ), 0 < Matrix.det A →
        mvnCoefOf n A⁻¹ =
          -((n : ℝ) / 2) * Real.log (2 * Real.pi) -
            (1 / 2) * Real.log (Matrix.det A) := by
  refine ⟨rfl, fun n A h => ?_⟩
  have h2pi : (0 : ℝ) < 2 * Real.pi := by positivity
  have hdetinv : Matrix.det A⁻¹ = (Matrix.det A)⁻¹ := by
    rw [Matrix.det_nonsing_inv, Ring.inverse_eq_inv]
  rw [mvnCoefOf, hdetinv, one_div, Real.log_inv,
    Real.log_sqrt h2pi.le, Real.log_sqrt (inv_nonneg.mpr h.le), Real.log_inv]
  ring

/-- Witness for C2, at the notebook's own covariance matrix `COVMAT`
(identity, determinant `1 > 0`). -/
theorem C2_log_normalization_constant_witness :
    0 < Matrix.det COVMAT ∧
      mvnCoefOf NDIM COVMAT⁻¹ =
        -((NDIM : ℝ) / 2) * Real.log (2 * Real.pi) -
          (1 / 2) * Real.log (Matrix.det COVMAT) :=
  ⟨by simp [COVMAT], C2_log_normalization_constant.2 NDIM COVMAT (by simp [COVMAT])⟩

/-- C3: In exact real arithmetic, the naive path `getLogFunc_bad`
(`log` of the pdf) and the stable path `getLogFunc` return the same value at
every point of the correct dimension. -/
theorem C3_naive_equals_stable_exact (point : Fin NDIM → ℝ) :
    getLogFunc_bad point = getLogFunc point :=
  naive_eq_stable point

/-- C4: For the notebook's configuration (zero mean, identity covariance,
`NDIM = 4`), the stable evaluator at the zero vector returns
`-(NDIM/2) * ln(2*pi)`. -/
theorem C4_standard_normal_at_mean :
    getLogFunc (fun _ => 0) = -((NDIM : ℝ) / 2) * Real.log (2 * Real.pi) := by
  rw [getLogFunc_eq_sq, MVN_COEF_eq]
  norm_num [NDIM]

/-- C5: The stable evaluator is total: at every point it is the plain
arithmetic expression `MVN_COEF - (1/2) * Σ pᵢ²` (no logarithm or
exponential is ever applied, so no finite input can produce an undefined or
infinite value in the underlying real arithmetic); in particular at the
far-away point `[10000, 10000, 10000, 10000]` it returns the finite value
`MVN_COEF - 2*10^8` (about `-2.000000037×10^8`). -/
theorem C5_total_finite_value :
    (∀ p : Fin NDIM → ℝ, getLogFunc p = MVN_COEF - (1 / 2) * ∑ i, (p i) ^ 2) ∧
      getLogFunc (fun _ => (10000 : ℝ)) = MVN_COEF - 2 * 10 ^ 8 :=
  ⟨getLogFunc_eq_sq, getLogFunc_far⟩

/-- C6: At the far-away point `[10000, 10000, 10000, 10000]`, the exponential
inside the naive path underflows to zero under the double-precision model,
so `getLogFunc_bad` returns `⊥` (negative infinity) — an ordinary value
propagated to the caller, not a raised error — whereas the true value (the
naive path in exact arithmetic) is the finite `MVN_COEF - 2*10^8`. -/
theorem C6_naive_underflow_neg_infinity :
    getLogFunc_bad_double (fun _ => (10000 : ℝ)) = (⊥ : EReal) ∧
      getLogFunc_bad (fun _ => (10000 : ℝ)) = MVN_COEF - 2 * 10 ^ 8 := by
  refine ⟨getLogFunc_bad_double_far, ?_⟩
  rw [naive_eq_stable, getLogFunc_far]

/-- C7: `evaluateLogDensity` called with a point whose length differs from
the evaluator's dimension fails with `DimensionMismatch`; no numeric result
is returned for such a point. -/
theorem C7_point_dimension_mismatch {n : ℕ} (e : LogDensityEvaluator n)
    (point : List ℝ) (h : point.length ≠ n) :
    evaluateLogDensity e point = Except.error EvalError.DimensionMismatch := by
  rw [evaluateLogDensity, dif_neg h]

/-- Witness for C7: a length-1 point against the 2-dimensional evaluator
`E1`. -/
theorem C7_point_dimension_mismatch_witness :
    [(0 : ℝ)].length ≠ 2 ∧
      evaluateLogDensity E1 [(0 : ℝ)] = Except.error EvalError.DimensionMismatch :=
  ⟨by decide, C7_point_dimension_mismatch E1 [(0 : ℝ)] (by decide)⟩

/-- C8: `create` fails with `SingularMatrix` whenever the supplied covariance
matrix is not invertible (determinant zero, e.g. the all-zeros matrix); the
result is the error alone, so no partial evaluator is returned. -/
theorem C8_singular_covariance_rejected {n : ℕ} (mean : Fin n → ℝ)
    (covariance : Matrix (Fin n) (Fin n) ℝ) (h : Matrix.det covariance = 0) :
    create mean covariance = Except.error EvalError.SingularMatrix := by
  rw [create, if_pos h]

/-- Witness for C8: the 2×2 all-zeros covariance matrix. -/
theorem C8_singular_covariance_rejected_witness :
    Matrix.det (0 : Matrix (Fin 2) (Fin 2) ℝ) = 0 ∧
      create (fun _ => (0 : ℝ)) (0 : Matrix (Fin 2) (Fin 2) ℝ) =
        Except.error EvalError.SingularMatrix :=
  ⟨Matrix.det_zero ⟨0⟩, C8_singular_covariance_rejected _ _ (Matrix.det_zero ⟨0⟩)⟩

/-- C9: `evaluateLogDensity` is a pure, deterministic function of the
evaluator's stored state: any two evaluators agreeing on the stored mean,
inverse covariance and log normalization constant give identical results at
every point (in particular, two calls with the same point on the same
evaluator return identical results, and no call can modify the immutable
stored state). -/
theorem C9_pure_function_of_stored_state {n : ℕ}
    (e₁ e₂ : LogDensityEvaluator n) (point : List ℝ)
    (h₁ : e₁.mean = e₂.mean)
    (h₂ : e₁.inverseCovariance = e₂.inverseCovariance)
    (h₃ : e₁.logNormalizationConstant = e₂.logNormalizationConstant) :
    evaluateLogDensity e₁ point = evaluateLogDensity e₂ point := by
  obtain ⟨m₁, ic₁, c₁⟩ := e₁
  obtain ⟨m₂, ic₂, c₂⟩ := e₂
  cases h₁
  cases h₂
  cases h₃
  rfl

/-- Witness for C9: two calls on the evaluator `E1` with the same point. -/
theorem C9_pure_function_of_stored_state_witness :
    E1.mean = E1.mean ∧
      evaluateLogDensity E1 [(0 : ℝ), 0] = evaluateLogDensity E1 [(0 : ℝ), 0] :=
  ⟨rfl, C9_pure_function_of_stored_state E1 E1 [(0 : ℝ), 0] rfl rfl rfl⟩

/-- C10: For the notebook's configuration, the stable evaluator is bounded
above by the log normalization constant, with equality exactly at the mean:
the quadratic form is a sum of squares, non-negative and zero only at
`MEAN`. -/
theorem C10_bounded_above_by_coef (p : Fin NDIM → ℝ) :
    getLogFunc p ≤ MVN_COEF ∧ (getLogFunc p = MVN_COEF ↔ p = MEAN) := by
  have hsum : (0 : ℝ) ≤ ∑ i, (p i) ^ 2 :=
    Finset.sum_nonneg fun i _ => sq_nonneg _
  have hx := getLogFunc_eq_sq p
  constructor
  · rw [hx]
    linarith
  · rw [hx]
    constructor
    · intro h
      have hz : ∑ i, (p i) ^ 2 = 0 := by linarith
      have hall := (Finset.sum_eq_zero_iff_of_nonneg
        (fun i _ => sq_nonneg (p i))).mp hz
      funext i
      have hi : p i = 0 := sq_eq_zero_iff.mp (hall i (Finset.mem_univ i))
      simp [MEAN, hi]
    · intro h
      rw [h]
      simp [MEAN]

end Paramontex
